import Mathlib

/-!
Verification of the distance kernels in `src/distance.rs` (crate `kiddo`).

The Rust module defines pure functions over fixed-size arrays of `f32`
(and, for `squared_euclidean`, any `Float` type):

* `squared_euclidean` — zip, map squared difference, left fold with `+` from 0;
* `dot_product`       — zip, map product, left fold with `-` from 0;
* `dot_sse` / `dot_sse_aligned` — SSE4.1 kernels built on `_mm_dp_ps` with
  immediate mask `0x71`, reading lane 0 of the result through the
  `SimdToArray` union;
* `dot_product_sse_3`, `dot_product_sse_4`, `dot_product_sse`,
  `dot_product_sse_aligned` — wrappers and the dimensionality dispatcher.

Points `[T; K]` are embedded as `List α` together with a length hypothesis
where a theorem needs one.  The scalar type is kept generic over the ring
operations the code uses (`+`, `-`, `*`, `0`); theorems instantiate it at `ℚ`,
an exact model of ideal floating-point arithmetic (the code performs no
division, and every concrete input used below is a small integer, on which
`f32` arithmetic is exact).  Pointers to at least four contiguous floats are
embedded as the list of values they point at; memory alignment is a
precondition on addresses, not on values, so it does not appear in the value
model.
-/

namespace Kiddo

variable {α : Type} [Add α] [Sub α] [Mul α] [Zero α]

/-- Rust `squared_euclidean`: `a.iter().zip(b.iter()).map(|(x, y)| (x-y)*(x-y)).fold(T::zero(), Add::add)`. -/
def squared_euclidean (a b : List α) : α :=
  ((a.zip b).map (fun p => (p.1 - p.2) * (p.1 - p.2))).foldl (· + ·) 0

/-- Rust `dot_product`: `a.iter().zip(b.iter()).map(|(x, y)| x*y).fold(0f32, Sub::sub)`. -/
def dot_product (a b : List α) : α :=
  ((a.zip b).map (fun p => p.1 * p.2)).foldl (· - ·) 0

/-- A 128-bit SSE register holding four 32-bit float lanes. -/
structure m128 (α : Type) where
  lane0 : α
  lane1 : α
  lane2 : α
  lane3 : α

/-- `_mm_loadu_ps`: unaligned load of four consecutive floats from a pointer. -/
def mm_loadu_ps (p : List α) : m128 α :=
  ⟨p.getD 0 0, p.getD 1 0, p.getD 2 0, p.getD 3 0⟩

/-- `_mm_load_ps`: 16-byte-aligned load of four consecutive floats.  Alignment
constrains the address, not the loaded values, so the value-level semantics
coincides with the unaligned load. -/
def mm_load_ps (p : List α) : m128 α :=
  ⟨p.getD 0 0, p.getD 1 0, p.getD 2 0, p.getD 3 0⟩

/-- `_mm_dp_ps a b imm` (SSE4.1 `DPPS`): lane `i` contributes `a[i]*b[i]` to the
sum iff bit `4+i` of `imm` is set; the sum is written to result lane `i` iff
bit `i` of `imm` is set, other lanes are zeroed. -/
def mm_dp_ps (a b : m128 α) (imm : Nat) : m128 α :=
  let t0 := if imm.testBit 4 then a.lane0 * b.lane0 else 0
  let t1 := if imm.testBit 5 then a.lane1 * b.lane1 else 0
  let t2 := if imm.testBit 6 then a.lane2 * b.lane2 else 0
  let t3 := if imm.testBit 7 then a.lane3 * b.lane3 else 0
  let s := t0 + t1 + t2 + t3
  ⟨if imm.testBit 0 then s else 0,
   if imm.testBit 1 then s else 0,
   if imm.testBit 2 then s else 0,
   if imm.testBit 3 then s else 0⟩

/-- The `SimdToArray` union viewed from its `array: [f32; 4]` side: the bit
pattern of the register re-read as four floats, lane 0 first (little-endian
lane order, zero conversion). -/
def SimdToArray.array (simd : m128 α) : List α :=
  [simd.lane0, simd.lane1, simd.lane2, simd.lane3]

/-- Rust `dot_sse`: unaligned loads, `_mm_dp_ps` with mask `0x71`, then
`res.array[0]`. -/
def dot_sse (a b : List α) : α :=
  let a_mm := mm_loadu_ps a
  let b_mm := mm_loadu_ps b
  (SimdToArray.array (mm_dp_ps a_mm b_mm 0x71)).getD 0 0

/-- Rust `dot_sse_aligned`: aligned loads, `_mm_dp_ps` with mask `0x71`, then
`res.array[0]`. -/
def dot_sse_aligned (a b : List α) : α :=
  let a_mm := mm_load_ps a
  let b_mm := mm_load_ps b
  (SimdToArray.array (mm_dp_ps a_mm b_mm 0x71)).getD 0 0

/-- Rust `dot_product_sse_3`: builds the stack arrays `[a[0], a[1], a[2], 0.]`
and `[b[0], b[1], b[2], 0.]` and hands their pointers to `dot_sse`. -/
def dot_product_sse_3 (a b : List α) : α :=
  let ap := [a.getD 0 0, a.getD 1 0, a.getD 2 0, 0]
  let bp := [b.getD 0 0, b.getD 1 0, b.getD 2 0, 0]
  dot_sse ap bp

/-- Rust `dot_product_sse_4`: hands the slice pointers straight to `dot_sse`. -/
def dot_product_sse_4 (a b : List α) : α :=
  dot_sse a b

/-- Rust `dot_product_sse`, the dimensionality dispatcher.  Note that both the
`K == 3` and the `K == 4` branches pass `&a[0..n]` twice — `b` is only used by
the fallback branch. -/
def dot_product_sse (K : Nat) (a b : List α) : α :=
  if K = 3 then
    dot_product_sse_3 (a.take 3) (a.take 3)
  else if K = 4 then
    dot_product_sse_4 (a.take 4) (a.take 4)
  else
    dot_product a b

/-- Rust `dot_product_sse_aligned`: hands the array pointers to
`dot_sse_aligned`. -/
def dot_product_sse_aligned (a b : List α) : α :=
  dot_sse_aligned a b

/-- A left fold of subtraction over a list subtracts the list sum from the
initial accumulator. -/
theorem foldl_sub_eq (l : List ℚ) (x : ℚ) : l.foldl (· - ·) x = x - l.sum := by
  induction l generalizing x with
  | nil => simp
  | cons y ys ih => simp [List.foldl_cons, ih, sub_sub]

/-- A left fold of addition over a list adds the list sum to the initial
accumulator. -/
theorem foldl_add_eq (l : List ℚ) (x : ℚ) : l.foldl (· + ·) x = x + l.sum := by
  induction l generalizing x with
  | nil => simp
  | cons y ys ih => simp [List.foldl_cons, ih, add_assoc]

/-- C1, counterexample: the mask `0x71` excludes lane 3 from the accumulation,
so `dot_product_sse_4 [1,2,3,4] [1,1,1,1]` is `1+2+3 = 6`, not the claimed
four-term dot product `10`. -/
theorem c1_counterexample :
    dot_product_sse_4 ([1, 2, 3, 4] : List ℚ) [1, 1, 1, 1] = 6 ∧
    dot_product_sse_4 ([1, 2, 3, 4] : List ℚ) [1, 1, 1, 1] ≠ 10 := by
  norm_num +decide [dot_product_sse_4, dot_sse, mm_loadu_ps, mm_dp_ps, SimdToArray.array]

/-- C1, amended: `dot_product_sse_4` on 4-dimensional inputs returns only the
three-term sum `a[0]*b[0] + a[1]*b[1] + a[2]*b[2]`; lane 3 never contributes
because of the `0x71` immediate. -/
theorem c1_theorem (a0 a1 a2 a3 b0 b1 b2 b3 : ℚ) :
    dot_product_sse_4 [a0, a1, a2, a3] [b0, b1, b2, b3]
      = a0 * b0 + a1 * b1 + a2 * b2 := by
  simp +decide [dot_product_sse_4, dot_sse, mm_loadu_ps, mm_dp_ps, SimdToArray.array]

/-- C2, counterexample: the `K == 4` branch of `dot_product_sse` passes
`&a[0..4]` for both operands, so on `a=[1,2,3,4]`, `b=[5,6,7,8]` it returns
`1+4+9 = 14` while `dot_product_sse_4 a b` returns `5+12+21 = 38`. -/
theorem c2_counterexample :
    dot_product_sse 4 ([1, 2, 3, 4] : List ℚ) [5, 6, 7, 8]
      ≠ dot_product_sse_4 ([1, 2, 3, 4] : List ℚ) [5, 6, 7, 8] := by
  norm_num +decide [dot_product_sse, dot_product_sse_4, dot_sse, mm_loadu_ps, mm_dp_ps,
    SimdToArray.array]

/-- C2, amended: for `K == 4` the dispatcher delegates to the 4-lane kernel
with `a` paired with itself, so `dot_product_sse a b = dot_product_sse_4 a a`
and `b` is ignored. -/
theorem c2_theorem (a b : List ℚ) (ha : a.length = 4) :
    dot_product_sse 4 a b = dot_product_sse_4 a a := by
  have h : a.take 4 = a := by rw [← ha, List.take_length]
  simp [dot_product_sse, h]

/-- Witness for the amended C2 at `a=[1,2,3,4]`, `b=[5,6,7,8]`. -/
theorem c2_witness :
    ([1, 2, 3, 4] : List ℚ).length = 4 ∧
    dot_product_sse 4 ([1, 2, 3, 4] : List ℚ) [5, 6, 7, 8]
      = dot_product_sse_4 ([1, 2, 3, 4] : List ℚ) [1, 2, 3, 4] :=
  ⟨by simp, c2_theorem [1, 2, 3, 4] [5, 6, 7, 8] (by simp)⟩

/-- C3: `dot_product` is the left fold from 0 that subtracts every element-wise
product, i.e. the negation `0 - Σ a[i]*b[i]` of the true dot product; in
particular `dot_product [1,2] [3,4] = -11`. -/
theorem c3_theorem (a b : List ℚ) :
    dot_product a b = 0 - ((a.zip b).map (fun p => p.1 * p.2)).sum ∧
    dot_product ([1, 2] : List ℚ) [3, 4] = -11 := by
  constructor
  · rw [dot_product, foldl_sub_eq]
  · norm_num [dot_product]

/-- C4: `squared_euclidean` returns the (left-to-right accumulated) sum of
squared per-coordinate differences, with the three concrete values from the
doc tests. -/
theorem c4_theorem (a b : List ℚ) :
    squared_euclidean a b = ((a.zip b).map (fun p => (p.1 - p.2) * (p.1 - p.2))).sum ∧
    squared_euclidean ([0, 0] : List ℚ) [0, 0] = 0 ∧
    squared_euclidean ([0, 0] : List ℚ) [1, 1] = 2 ∧
    squared_euclidean ([0, 0] : List ℚ) [1, 0] = 1 := by
  refine ⟨?_, ?_, ?_, ?_⟩
  · rw [squared_euclidean, foldl_add_eq, zero_add]
  all_goals norm_num [squared_euclidean]

/-- C5: in the `K == 3` branch the dispatcher pairs `a` with `a` (not `b`), so
it returns the self dot-product `dot_product_sse_3 a a` and its result does not
depend on `b`. -/
theorem c5_theorem (a b c : List ℚ) (ha : a.length = 3) (hb : b.length = 3)
    (hc : c.length = 3) :
    dot_product_sse 3 a b = dot_product_sse_3 a a ∧
    dot_product_sse 3 a b = dot_product_sse 3 a c := by
  have h : a.take 3 = a := by rw [← ha, List.take_length]
  exact ⟨by simp [dot_product_sse, h], by simp [dot_product_sse]⟩

/-- Witness for C5 at `a=[1,2,3]`, `b=[4,5,6]`, `c=[7,8,9]`. -/
theorem c5_witness :
    ([1, 2, 3] : List ℚ).length = 3 ∧
    dot_product_sse 3 ([1, 2, 3] : List ℚ) [4, 5, 6]
      = dot_product_sse_3 ([1, 2, 3] : List ℚ) [1, 2, 3] ∧
    dot_product_sse 3 ([1, 2, 3] : List ℚ) [4, 5, 6]
      = dot_product_sse 3 ([1, 2, 3] : List ℚ) [7, 8, 9] :=
  ⟨by simp,
   (c5_theorem [1, 2, 3] [4, 5, 6] [7, 8, 9] (by simp) (by simp) (by simp)).1,
   (c5_theorem [1, 2, 3] [4, 5, 6] [7, 8, 9] (by simp) (by simp) (by simp)).2⟩

/-- C6: for any dimensionality other than 3 or 4 the dispatcher falls back to
the portable `dot_product`. -/
theorem c6_theorem (K : Nat) (a b : List ℚ) (h3 : K ≠ 3) (h4 : K ≠ 4) :
    dot_product_sse K a b = dot_product a b := by
  simp [dot_product_sse, h3, h4]

/-- Witness for C6 at `K = 2`, `a=[1,2]`, `b=[3,4]`. -/
theorem c6_witness :
    (2 : Nat) ≠ 3 ∧ (2 : Nat) ≠ 4 ∧
    dot_product_sse 2 ([1, 2] : List ℚ) [3, 4] = dot_product ([1, 2] : List ℚ) [3, 4] :=
  ⟨by decide, by decide, c6_theorem 2 [1, 2] [3, 4] (by decide) (by decide)⟩

/-- The mapped-and-summed squared differences are symmetric in the two lists. -/
theorem zip_sq_sum_comm (a b : List ℚ) :
    ((a.zip b).map (fun p => (p.1 - p.2) * (p.1 - p.2))).sum
      = ((b.zip a).map (fun p => (p.1 - p.2) * (p.1 - p.2))).sum := by
  induction a generalizing b with
  | nil => cases b <;> simp
  | cons x xs ih =>
    cases b with
    | nil => simp
    | cons y ys =>
      simp only [List.zip_cons_cons, List.map_cons, List.sum_cons, ih ys]
      ring

/-- C7: `squared_euclidean` is symmetric in its two arguments. -/
theorem c7_theorem (a b : List ℚ) : squared_euclidean a b = squared_euclidean b a := by
  rw [squared_euclidean, squared_euclidean, foldl_add_eq, foldl_add_eq, zero_add, zero_add]
  exact zip_sq_sum_comm a b

/-- C8: `squared_euclidean` of a point with itself is 0. -/
theorem c8_theorem (a : List ℚ) : squared_euclidean a a = 0 := by
  rw [squared_euclidean, foldl_add_eq, zero_add]
  induction a with
  | nil => simp
  | cons x xs ih => simp [ih]

/-- C9: on identical loaded data the aligned kernel `dot_sse_aligned` and the
unaligned kernel `dot_sse` return identical results (the two differ only in
the load instruction, whose value semantics agree; alignment constrains the
address, not the value). -/
theorem c9_theorem (a b : List ℚ) : dot_sse_aligned a b = dot_sse a b := by
  rw [dot_sse_aligned, dot_sse, mm_load_ps, mm_loadu_ps, mm_load_ps, mm_loadu_ps]

/-- C10: `dot_product_sse_3` reads only the first three elements of each slice
(the tails `ta`, `tb` are arbitrary) and returns the conventional positive
three-term dot product, the opposite sign of the generic `dot_product` on the
same 3-dimensional inputs. -/
theorem c10_theorem (a0 a1 a2 b0 b1 b2 : ℚ) (ta tb : List ℚ) :
    dot_product_sse_3 (a0 :: a1 :: a2 :: ta) (b0 :: b1 :: b2 :: tb)
      = a0 * b0 + a1 * b1 + a2 * b2 ∧
    dot_product ([a0, a1, a2] : List ℚ) [b0, b1, b2]
      = -(a0 * b0 + a1 * b1 + a2 * b2) := by
  constructor
  · simp +decide [dot_product_sse_3, dot_sse, mm_loadu_ps, mm_dp_ps, SimdToArray.array]
  · rw [dot_product, foldl_sub_eq]
    simp only [List.zip_cons_cons, List.zip_nil_right, List.map_cons, List.map_nil,
      List.sum_cons, List.sum_nil]
    ring

end Kiddo
